import Mathlib

/-!
Shallow embedding of the kucoin-project trading bot (Python) and proofs about
the claims of its specification.  Every definition mirrors a function of the
source tree; times and monetary quantities are modelled as rational numbers,
Python dicts as association lists or total functions with the dict's default.
-/

namespace KucoinProject

abbrev Symbol := String

/-! ### RiskManager (src/core/risk_manager.py) -/

/-- State of `RiskManager`: configured limits plus the mutable accumulators. -/
structure RiskState where
  maxDailyLoss : ℚ
  maxPositions : Nat
  dailyLoss : ℚ
  openPositions : Nat
  lastReset : ℚ
  deriving DecidableEq

/-- `RiskManager.check_daily_loss`: resets the daily-loss accumulator when more
than 86400 seconds have elapsed since `last_reset`, then reports whether
trading may continue.  Returns the boolean together with the updated state. -/
def check_daily_loss (st : RiskState) (now : ℚ) : Bool × RiskState :=
  let st1 := if 86400 < now - st.lastReset
    then { st with dailyLoss := 0, lastReset := now }
    else st
  (decide (st1.dailyLoss < st1.maxDailyLoss) && decide (st1.openPositions < st1.maxPositions), st1)

/-! ### OrderExecutor (src/core/order_executor.py) -/

/-- The `"spot"` entry of `OrderExecutor.strategy_priorities`. -/
def spotPriority (name : String) : Option Nat :=
  if name = "arbitrage" then some 1
  else if name = "breakout_trading" then some 2
  else if name = "momentum" then some 3
  else if name = "ichimoku" then some 3
  else if name = "trend_following" then some 4
  else if name = "mean_reversion" then some 5
  else if name = "scalping" then some 6
  else none

/-- The `"futures"` entry of `OrderExecutor.strategy_priorities`. -/
def futuresPriority (name : String) : Option Nat :=
  if name = "arbitrage" then some 1
  else if name = "scalping" then some 2
  else if name = "momentum" then some 2
  else if name = "ichimoku" then some 3
  else if name = "breakout_trading" then some 3
  else if name = "trend_following" then some 4
  else if name = "mean_reversion" then some 5
  else none

/-- `self.strategy_priorities.get(market_type, {}).get(strategy_name, 999)`:
an absent market type yields the empty table, an absent (or `None`) strategy
name yields the default priority 999. -/
def strategyPriority (marketType : String) (strategyName : Option String) : Nat :=
  let table : String → Option Nat :=
    if marketType = "spot" then spotPriority
    else if marketType = "futures" then futuresPriority
    else fun _ => none
  match strategyName with
  | none => 999
  | some n => (table n).getD 999

/-- Python's `str.startswith`, in a form the kernel evaluates on literals. -/
def strStartsWith (s p : String) : Bool := s.data.take p.data.length == p.data

/-- Outcome of `OrderExecutor.execute_order`: `rejected` is the cooldown early
return (Python returns `None` without touching `last_orders`), `dispatched r`
means the inner dispatch ran and produced `r` (`none` when it failed or threw,
which the `except` turns into `None`). -/
inductive ExecOutcome (R : Type) where
  | rejected
  | dispatched (result : Option R)
  deriving DecidableEq

/-- `OrderExecutor.execute_order`.  `lastOrders` is the `last_orders` dict,
`cooldownCfg` the optional `trading_engine.order_cooldown` config entry
(default 300), `dispatch` the result of the inner order dispatch (which in
the source runs after the timestamp is stamped, so its failure does not undo
the stamp).  Returns the outcome with the updated `last_orders`. -/
def execute_order {R : Type} (lastOrders : Symbol → Option ℚ) (cooldownCfg : Option ℚ)
    (symbol : Symbol) (strategyName : Option String) (now : ℚ) (dispatch : Option R) :
    ExecOutcome R × (Symbol → Option ℚ) :=
  let stamped : Symbol → Option ℚ := fun s => if s = symbol then some now else lastOrders s
  match lastOrders symbol with
  | some lastTime =>
    let cooldown := cooldownCfg.getD 300
    let marketType := if strStartsWith symbol "SPOT:" then "spot" else "futures"
    let prio := strategyPriority marketType strategyName
    if prio ≤ 2 then
      (ExecOutcome.dispatched dispatch, stamped)
    else if now - lastTime < cooldown then
      (ExecOutcome.rejected, lastOrders)
    else
      (ExecOutcome.dispatched dispatch, stamped)
  | none => (ExecOutcome.dispatched dispatch, stamped)

/-! ### Liquidation price (src/utilities/trade_sizing.py) -/

/-- A KuCoin liquidation price: a finite value or `Decimal("Infinity")`. -/
inductive LiqPrice where
  | val (q : ℚ)
  | infinity
  deriving DecidableEq

/-- `calculate_kucoin_liquidation_price`.  `positionSize` is accepted but,
as in the source, unused by the formula; `mmRate` is the maintenance margin
rate parameter whose Python default is `Decimal("0.005")`. -/
def calculate_kucoin_liquidation_price (entryPrice leverage : ℚ) (direction : String)
    (positionSize : ℚ) (mmRate : ℚ) : LiqPrice :=
  if leverage ≤ 1 then
    if direction = "long" then LiqPrice.val 0 else LiqPrice.infinity
  else if direction = "long" then
    LiqPrice.val (entryPrice * (1 - 1 / leverage + mmRate))
  else
    LiqPrice.val (entryPrice * (1 + 1 / leverage - mmRate))

/-! ### Typed Python arithmetic, for PositionManager.calculate_required_margin

The margin computation mixes Python `float`s (`size * price`) with `Decimal`s
(`ensure_decimal(leverage)`).  CPython refuses arithmetic between `float` and
`Decimal` with a `TypeError`, so the runtime type of each value matters and is
carried explicitly here. -/

/-- A Python number together with its runtime type. -/
inductive PyNum where
  | pint (n : ℤ)
  | pfloat (q : ℚ)
  | pdec (q : ℚ)
  deriving DecidableEq

/-- Numeric value of a `PyNum`, forgetting the runtime type. -/
def PyNum.toQ : PyNum → ℚ
  | .pint n => (n : ℚ)
  | .pfloat q => q
  | .pdec q => q

/-- `utilities.numeric_utils.ensure_decimal`: a `Decimal` is returned as is,
anything else becomes `Decimal(str(value))`. -/
def ensure_decimal (v : PyNum) : PyNum := PyNum.pdec v.toQ

/-- Python multiplication: `float` and `Decimal` do not mix (`TypeError`),
`int` coerces to either side. -/
def pyMul : PyNum → PyNum → Except Unit PyNum
  | .pint a, .pint b => .ok (.pint (a * b))
  | .pint a, .pfloat b => .ok (.pfloat ((a : ℚ) * b))
  | .pfloat a, .pint b => .ok (.pfloat (a * (b : ℚ)))
  | .pfloat a, .pfloat b => .ok (.pfloat (a * b))
  | .pint a, .pdec b => .ok (.pdec ((a : ℚ) * b))
  | .pdec a, .pint b => .ok (.pdec (a * (b : ℚ)))
  | .pdec a, .pdec b => .ok (.pdec (a * b))
  | .pfloat _, .pdec _ => .error ()
  | .pdec _, .pfloat _ => .error ()

/-- Python true division, with the same mixing rule; division by zero raises. -/
def pyDiv : PyNum → PyNum → Except Unit PyNum
  | .pint a, .pint b => if b = 0 then .error () else .ok (.pfloat ((a : ℚ) / (b : ℚ)))
  | .pint a, .pfloat b => if b = 0 then .error () else .ok (.pfloat ((a : ℚ) / b))
  | .pfloat a, .pint b => if b = 0 then .error () else .ok (.pfloat (a / (b : ℚ)))
  | .pfloat a, .pfloat b => if b = 0 then .error () else .ok (.pfloat (a / b))
  | .pint a, .pdec b => if b = 0 then .error () else .ok (.pdec ((a : ℚ) / b))
  | .pdec a, .pint b => if b = 0 then .error () else .ok (.pdec (a / (b : ℚ)))
  | .pdec a, .pdec b => if b = 0 then .error () else .ok (.pdec (a / b))
  | .pfloat _, .pdec _ => .error ()
  | .pdec _, .pfloat _ => .error ()

/-- Python `max` of two numbers (comparison between `float` and `Decimal`
is allowed in Python 3, unlike arithmetic). -/
def pyMax (a b : PyNum) : PyNum := if a.toQ < b.toQ then b else a

/-- Result of `PositionManager.calculate_required_margin`: a finite margin, or
`float('inf')` from the `except` handler. -/
inductive MarginResult where
  | val (q : ℚ)
  | infinity
  deriving DecidableEq

/-- `PositionManager.calculate_required_margin`.  `size` and `price` arrive as
Python `float`s (per the signature), so `position_value = size * price` is a
`float`; `leverage` and the market's `maintenance_margin_rate` are passed with
their runtime types.  Any exception inside the `try` yields `float('inf')`. -/
def calculate_required_margin (leverage mmRate : PyNum) (size price : ℚ) : MarginResult :=
  let positionValue : PyNum := .pfloat (size * price)
  match pyDiv positionValue (ensure_decimal leverage) with
  | .error _ => .infinity
  | .ok initialMargin =>
    match pyMul positionValue (ensure_decimal mmRate) with
    | .error _ => .infinity
    | .ok maintenanceMargin =>
      match pyMul (pyMax initialMargin maintenanceMargin) (.pfloat (11 / 10)) with
      | .error _ => .infinity
      | .ok r => .val r.toQ

/-! ### Correlation cache (src/core/position_manager.py) -/

/-- The `correlation_cache` dict, keyed by ordered symbol pairs.  Insertion
conses; `cacheLookup` returns the most recent binding, matching dict
assignment/lookup semantics observationally. -/
abbrev CorrCache := List ((Symbol × Symbol) × ℚ)

/-- Dict lookup in the correlation cache. -/
def cacheLookup : CorrCache → Symbol × Symbol → Option ℚ
  | [], _ => none
  | e :: rest, k => if e.1 = k then some e.2 else cacheLookup rest k

/-- Dict assignment in the correlation cache. -/
def cacheInsert (c : CorrCache) (k : Symbol × Symbol) (v : ℚ) : CorrCache :=
  (k, v) :: c

/-- `PositionManager.get_correlation`: `self.correlation_cache.get((s1, s2), 0.0)`. -/
def get_correlation (c : CorrCache) (symbol1 symbol2 : Symbol) : ℚ :=
  (cacheLookup c (symbol1, symbol2)).getD 0

/-- The ordered pairs visited by `for i, sym1 in enumerate(symbols): for sym2
in symbols[i+1:]`. -/
def pairsOf : List Symbol → List (Symbol × Symbol)
  | [] => []
  | s :: rest => (rest.map fun t => (s, t)) ++ pairsOf rest

/-- Body of the pair loop in `PositionManager.update_correlation_cache`:
`corr` abstracts the fetched OHLCV data, with `corr a b = some v` when both
price series have equal length and their correlation is `v`, and `none` when
the lengths differ (the pair is then skipped).  Both orientations of each
pair are stored; the cache is merged into, never cleared. -/
def corrStep (corr : Symbol → Symbol → Option ℚ) (c : CorrCache) (p : Symbol × Symbol) :
    CorrCache :=
  match corr p.1 p.2 with
  | some v => cacheInsert (cacheInsert c (p.1, p.2) v) (p.2, p.1) v
  | none => c

/-- `PositionManager.update_correlation_cache`: fold `corrStep` over the
visited pairs of currently open symbols; returns the merged cache together
with the new `cache_timestamp`. -/
def update_correlation_cache (symbols : List Symbol) (cache : CorrCache)
    (corr : Symbol → Symbol → Option ℚ) (now : ℚ) : CorrCache × ℚ :=
  ((pairsOf symbols).foldl (corrStep corr) cache, now)

/-- One step of the counting loop of `PositionManager.check_correlation_risk`:
a position other than the candidate counts when its cached correlation with
the candidate strictly exceeds the threshold. -/
def exposureStep (cache : CorrCache) (threshold : ℚ) (candidate : Symbol)
    (n : Nat) (s : Symbol) : Nat :=
  if s = candidate then n
  else if threshold < get_correlation cache candidate s then n + 1
  else n

/-- The `correlated_exposure` count of `check_correlation_risk`: fold of
`exposureStep` over the open positions. -/
def correlated_exposure (openSymbols : List Symbol) (cache : CorrCache)
    (threshold : ℚ) (candidate : Symbol) : Nat :=
  openSymbols.foldl (exposureStep cache threshold candidate) 0

/-- Spec-side variant of the counting loop, following the claim's words: it
counts positions whose ABSOLUTE correlation with the candidate exceeds the
threshold.  Used only to exhibit the divergence from the source, which
compares the signed correlation. -/
def correlated_exposure_abs (openSymbols : List Symbol) (cache : CorrCache)
    (threshold : ℚ) (candidate : Symbol) : Nat :=
  openSymbols.foldl (fun n s =>
    if s = candidate then n
    else if threshold < |get_correlation cache candidate s| then n + 1
    else n) 0

/-- The slice of `PositionManager` state that `check_correlation_risk`
touches. -/
structure CorrState where
  openSymbols : List Symbol
  cache : CorrCache
  cacheTimestamp : ℚ
  cacheDuration : ℚ
  threshold : ℚ
  maxExposure : Nat

/-- `PositionManager.check_correlation_risk`: refresh the cache when it is
older than `cache_duration`, then reject (return `false`) exactly when the
correlated-exposure count has reached `max_correlation_exposure`. -/
def check_correlation_risk (st : CorrState) (corr : Symbol → Symbol → Option ℚ)
    (now : ℚ) (candidate : Symbol) : Bool × CorrState :=
  let st1 :=
    if st.cacheDuration < now - st.cacheTimestamp then
      let u := update_correlation_cache st.openSymbols st.cache corr now
      { st with cache := u.1, cacheTimestamp := u.2 }
    else st
  (decide (correlated_exposure st1.openSymbols st1.cache st1.threshold candidate < st1.maxExposure),
   st1)

/-! ### Engine-level rate limiter (src/core/trading_engine.py) -/

/-- The rate-limiting slice of `TradingEngine` state.  `last_trade_time` is a
`defaultdict(float)` (default 0.0) and `rate_limit_counter` a
`defaultdict(int)` (default 0), so both are total functions. -/
structure RateState where
  lastTradeTime : Symbol → ℚ
  counter : Symbol → Nat
  lastReset : ℚ

/-- `TradingEngine.check_rate_limits`.  The order cooldown is the hard-coded
150 seconds; `maxHourlyCfg` is the optional `trading_engine.max_hourly_trades`
config entry (default 5).  Note the function never touches `last_trade_time`:
that timestamp is stamped by `execute_trade` only after the whole trade
succeeds. -/
def check_rate_limits (st : RateState) (maxHourlyCfg : Option Nat) (sym : Symbol)
    (now : ℚ) : Bool × RateState :=
  let st1 := if 3600 < now - st.lastReset
    then { st with counter := fun _ => 0, lastReset := now }
    else st
  if now - st1.lastTradeTime sym < 150 then (false, st1)
  else
    let maxHourly := maxHourlyCfg.getD 5
    if maxHourly ≤ st1.counter sym then (false, st1)
    else (true, { st1 with counter := fun s => if s = sym then st1.counter s + 1 else st1.counter s })

/-! ### Position map (src/core/position_manager.py) -/

/-- A stored `liquidation_price` value, with its Python runtime type: the
`float(trade_update['liquidation_price'])` assignment stores a `float`, while
the futures recomputation stores the `Decimal` returned by
`calculate_kucoin_liquidation_price`.  The distinction is observable:
`monitor_positions` subtracts the stored value from a `float` current price,
which raises `TypeError` for a `Decimal`. -/
inductive StoredLiq where
  | fromUpdate (q : ℚ)
  | computed (l : LiqPrice)
  deriving DecidableEq

/-- A tracked position.  The `last_update` timestamp of the source dict is
omitted (it carries no information the claims mention). -/
structure Position where
  size : ℚ
  entryPrice : ℚ
  currentPrice : ℚ
  liqPrice : Option StoredLiq
  margin : Option ℚ
  leverage : Option ℚ
  unrealizedPnlPct : Option ℚ
  deriving DecidableEq

/-- The `self.positions` dict.  Keys are unique because every write goes
through `posInsert`. -/
abbrev Positions := List (Symbol × Position)

/-- Dict lookup in the position map. -/
def posLookup : Positions → Symbol → Option Position
  | [], _ => none
  | e :: rest, s => if e.1 = s then some e.2 else posLookup rest s

/-- Dict assignment in the position map (replaces any previous binding). -/
def posInsert (ps : Positions) (s : Symbol) (p : Position) : Positions :=
  (s, p) :: ps.filter fun e => decide (e.1 ≠ s)

/-- One record returned by `exchange.fetch_positions()`: KuCoin spot style
(`currency`/`balance`), KuCoin futures style (`symbol`/`currentQty`, with
`avgEntryPrice` already defaulted to 0 when absent), or an unexpected format
that the loop logs and skips. -/
inductive RawPosition where
  | spot (currency : String) (balance : ℚ)
  | futures (symbol : String) (currentQty : ℚ) (avgEntryPrice : ℚ)
  | malformed
  deriving DecidableEq

/-- Body of the `fetch_positions` loop of `PositionManager.sync_positions`:
a spot or futures record with non-zero size is added to the accumulator, a
zero-size or unexpected record is skipped.  `priceOf` abstracts
`exchange.get_current_price`. -/
def syncStep (priceOf : Symbol → ℚ) (acc : Positions) (r : RawPosition) : Positions :=
  match r with
  | .spot c b =>
      if b ≠ 0 then posInsert acc c ⟨b, 0, priceOf c, none, none, none, none⟩ else acc
  | .futures s q e =>
      if q ≠ 0 then posInsert acc s ⟨q, e, priceOf s, none, none, none, none⟩ else acc
  | .malformed => acc

/-- `PositionManager.sync_positions`: rebuilds the position map from the
fetched records via `syncStep`, keeping only non-zero sizes, and replaces
`self.positions` wholesale (the old map is ignored). -/
def sync_positions (old : Positions) (raw : List RawPosition) (priceOf : Symbol → ℚ) :
    Positions :=
  let _ := old
  raw.foldl (syncStep priceOf) []

/-- The `trade_update` dict passed to `PositionManager.update_position`; every
field may be absent. -/
structure TradeUpdate where
  size : Option ℚ
  entryPrice : Option ℚ
  currentPrice : Option ℚ
  liqPrice : Option ℚ
  margin : Option ℚ
  leverage : Option ℚ
  deriving DecidableEq

/-- `PositionManager.update_position` (its effect on the position map).  A
missing symbol first gets a default entry; `size`, `entry_price` and
`current_price` are set with `.get(..., 0)`; the optional fields are copied
when present; for futures updates carrying a leverage, the liquidation price
is recomputed — via direct indexing `trade_update['entry_price']` and
`trade_update['size']`, whose `KeyError` is caught by the handler after the
earlier field assignments have already mutated the stored entry. -/
def update_position (ps : Positions) (isFutures : Bool) (sym : Symbol) (u : TradeUpdate) :
    Positions :=
  let base := (posLookup ps sym).getD ⟨0, 0, 0, none, none, none, none⟩
  let p1 : Position := { base with
    size := u.size.getD 0
    entryPrice := u.entryPrice.getD 0
    currentPrice := u.currentPrice.getD 0 }
  let p2 := match u.liqPrice with
    | some l => { p1 with liqPrice := some (StoredLiq.fromUpdate l) }
    | none => p1
  let p3 := match u.margin with
    | some m => { p2 with margin := some m }
    | none => p2
  let p4 := match u.leverage with
    | some l => { p3 with leverage := some l }
    | none => p3
  match isFutures, u.leverage with
  | true, some lev =>
    match u.entryPrice, u.size with
    | some ep, some sz =>
      let liq := calculate_kucoin_liquidation_price ep lev
        (if 0 < sz then "long" else "short") |sz| (5 / 1000)
      posInsert ps sym { p4 with liqPrice := some (StoredLiq.computed liq) }
    | _, _ => posInsert ps sym p4
  | _, _ => posInsert ps sym p4

/-! ### Position monitoring (src/core/position_manager.py) -/

/-- The observable effects of one iteration of the `monitor_positions` loop on
a single position: the updated record, whether `update_stop_loss` was invoked,
whether a liquidation-proximity warning was sent, and whether the iteration
raised a `TypeError` that the handler at the end of `monitor_positions`
swallows (which also abandons the remaining positions of that loop pass). -/
structure MonitorResult where
  pos : Position
  stopLossRefreshed : Bool
  liqWarning : Bool
  typeErrorAbort : Bool
  deriving DecidableEq

/-- One iteration of the `PositionManager.monitor_positions` loop for a single
position, given the freshly fetched current price (a `float`: the exchange's
`get_current_price` returns `float(...)`, `1.0` or `0`).  A non-positive price
skips the position entirely.  The PnL percentage is computed (entirely in
`ensure_decimal` arithmetic) only when `entry_price > 0` and `size != 0`; the
stop-loss refresh sits inside the `abs(pnl) > 5` logging branch, under a
further (vacuous) `abs(pnl) > 3` check.  The warning branch then computes
`abs(liq_price - current_price) / current_price`: when the stored liquidation
price is the `float` from a trade update this is float arithmetic and the
warning fires within 5% proximity; when it is the `Decimal` computed by
`update_position`'s futures path, `Decimal - float` raises `TypeError` — no
warning is sent and the exception aborts the iteration (the PnL store and the
stop-loss refresh have already happened at that point). -/
def monitor_position (p : Position) (currentPrice : ℚ) : MonitorResult :=
  if currentPrice ≤ 0 then ⟨p, false, false, false⟩
  else
    let p1 := { p with currentPrice := currentPrice }
    let pnlOpt : Option ℚ :=
      if 0 < p.entryPrice ∧ p.size ≠ 0 then
        some (if 0 < p.size
          then (currentPrice - p.entryPrice) / p.entryPrice * 100
          else (p.entryPrice - currentPrice) / p.entryPrice * 100)
      else none
    let p2 := match pnlOpt with
      | some v => { p1 with unrealizedPnlPct := some v }
      | none => p1
    let refreshed := match pnlOpt with
      | some v => decide (5 < |v|) && decide (3 < |v|)
      | none => false
    match p2.liqPrice with
    | some (StoredLiq.fromUpdate l) =>
        ⟨p2, refreshed, decide (|l - currentPrice| / currentPrice < 1 / 20), false⟩
    | some (StoredLiq.computed _) => ⟨p2, refreshed, false, true⟩
    | none => ⟨p2, refreshed, false, false⟩

/-! ## Theorems -/

/-- Claim C1: `check_daily_loss` first performs the time-based reset — when
more than 86400 seconds of wall-clock time have elapsed since the prior reset
it zeroes the daily-loss accumulator only (not the open-position counter) and
stamps the reset time — then returns `true` if and only if the daily loss is
below `max_daily_loss` and the open-position count below `max_open_positions`;
in particular with `last_reset = now - 86401` the call resets the daily loss
to 0 before evaluating the condition. -/
theorem check_daily_loss_spec (st : RiskState) (now : ℚ) :
    (86400 < now - st.lastReset →
      (check_daily_loss st now).2 = { st with dailyLoss := 0, lastReset := now }) ∧
    (¬ 86400 < now - st.lastReset → (check_daily_loss st now).2 = st) ∧
    (check_daily_loss st now).2.openPositions = st.openPositions ∧
    ((check_daily_loss st now).1 = true ↔
      ((check_daily_loss st now).2.dailyLoss < st.maxDailyLoss ∧
        (check_daily_loss st now).2.openPositions < st.maxPositions)) ∧
    (st.lastReset = now - 86401 → (check_daily_loss st now).2.dailyLoss = 0) := by
  by_cases h : (86400 : ℚ) < now - st.lastReset
  · refine ⟨fun _ => ?_, fun hc => absurd h hc, ?_, ?_, fun _ => ?_⟩ <;>
      simp [check_daily_loss, h]
  · refine ⟨fun hc => absurd hc h, fun _ => ?_, ?_, ?_, fun hres => ?_⟩
    · simp [check_daily_loss, h]
    · simp [check_daily_loss, h]
    · simp [check_daily_loss, h]
    · exact absurd (by rw [hres]; linarith) h

/-- Witness for C1: with `last_reset = now - 86401` (here `now = 86401`,
`last_reset = 0`) the daily loss of 50 is reset to 0. -/
theorem check_daily_loss_spec_witness :
    (0 : ℚ) = 86401 - 86401 ∧
    (check_daily_loss ⟨100, 3, 50, 1, 0⟩ 86401).2.dailyLoss = 0 :=
  ⟨by norm_num, (check_daily_loss_spec ⟨100, 3, 50, 1, 0⟩ 86401).2.2.2.2 (by norm_num)⟩

/-- Claim C3: for leverage `L > 1` the liquidation price is
`entry * (1 - 1/L + r)` for a long and `entry * (1 + 1/L - r)` for a short
position (`r` the maintenance margin rate, Python default 0.005), and for
`L ≤ 1` it is 0 for a long and `Decimal("Infinity")` for a short position;
`entry = 100, L = 10, r = 0.005` gives 90.5 (long) and 109.5 (short). -/
theorem liquidation_price_spec (entryPrice L r sz : ℚ) :
    (1 < L →
      calculate_kucoin_liquidation_price entryPrice L "long" sz r
          = LiqPrice.val (entryPrice * (1 - 1 / L + r)) ∧
      ∀ d : String, d ≠ "long" →
        calculate_kucoin_liquidation_price entryPrice L d sz r
          = LiqPrice.val (entryPrice * (1 + 1 / L - r))) ∧
    (L ≤ 1 →
      calculate_kucoin_liquidation_price entryPrice L "long" sz r = LiqPrice.val 0 ∧
      ∀ d : String, d ≠ "long" →
        calculate_kucoin_liquidation_price entryPrice L d sz r = LiqPrice.infinity) ∧
    calculate_kucoin_liquidation_price 100 10 "long" 1 (5 / 1000)
        = LiqPrice.val (181 / 2) ∧
    calculate_kucoin_liquidation_price 100 10 "short" 1 (5 / 1000)
        = LiqPrice.val (219 / 2) := by
  refine ⟨fun h => ⟨?_, fun d hd => ?_⟩, fun h => ⟨?_, fun d hd => ?_⟩, ?_, ?_⟩
  · simp [calculate_kucoin_liquidation_price, not_le.mpr h]
  · simp [calculate_kucoin_liquidation_price, not_le.mpr h, hd]
  · simp [calculate_kucoin_liquidation_price, h]
  · simp [calculate_kucoin_liquidation_price, h, hd]
  · norm_num [calculate_kucoin_liquidation_price]
  · have hs : ("short" : String) ≠ "long" := by decide
    norm_num [calculate_kucoin_liquidation_price, hs]

/-- Witness for C3: at leverage 10 > 1 the long formula applies. -/
theorem liquidation_price_spec_witness :
    (1 : ℚ) < 10 ∧
    calculate_kucoin_liquidation_price 200 10 "long" 3 (5 / 1000)
      = LiqPrice.val (200 * (1 - 1 / 10 + 5 / 1000)) :=
  ⟨by norm_num, ((liquidation_price_spec 200 10 (5 / 1000) 3).1 (by norm_num)).1⟩

/-- Claim C4 (code evaluation at the failing input): `calculate_required_margin`
never returns a finite margin — `position_value` is a Python `float`
(`size * price` with `float` arguments) while `ensure_decimal(leverage)` is a
`Decimal`, and CPython raises `TypeError` on `float / Decimal`, which the
`except` handler turns into `float('inf')`.  In particular at
`size = 1, price = 100, leverage = 10, maintenance_margin_rate = 0.005` the
result is infinity and not the value 11.0 stated by the specification. -/
theorem calculate_required_margin_bug :
    (∀ (leverage mmRate : PyNum) (size price : ℚ),
      calculate_required_margin leverage mmRate size price = MarginResult.infinity) ∧
    calculate_required_margin (PyNum.pint 10) (PyNum.pfloat (5 / 1000)) 1 100
        = MarginResult.infinity ∧
    MarginResult.infinity ≠ MarginResult.val 11 := by
  refine ⟨fun leverage mmRate size price => rfl, rfl, by simp⟩

/-- Claim C9: a symbol with no entry in `last_orders` undergoes no cooldown or
priority check at all — the first order for a symbol always reaches dispatch,
whatever the strategy and the configured cooldown, and the symbol is stamped
with the current time. -/
theorem execute_order_first_order_spec {R : Type} (lastOrders : Symbol → Option ℚ)
    (cooldownCfg : Option ℚ) (symbol : Symbol) (strategyName : Option String)
    (now : ℚ) (dispatch : Option R)
    (hnone : lastOrders symbol = none) :
    execute_order lastOrders cooldownCfg symbol strategyName now dispatch
      = (ExecOutcome.dispatched dispatch,
         fun s => if s = symbol then some now else lastOrders s) := by
  simp [execute_order, hnone]

/-- Witness for C9: a fresh symbol is dispatched at once even for the lowest
priority strategy with a long cooldown configured. -/
theorem execute_order_first_order_witness :
    ((fun _ : Symbol => (none : Option ℚ)) "XBTUSDTM" = none) ∧
    (execute_order (fun _ => none) (some 300) "XBTUSDTM" (some "mean_reversion") 5
        (some 7)).1 = ExecOutcome.dispatched (some 7) :=
  ⟨rfl, by
    rw [execute_order_first_order_spec (fun _ => none) (some 300) "XBTUSDTM"
      (some "mean_reversion") 5 (some 7) rfl]⟩

/-- Claim C2: for a call to `execute_order` whose symbol already has a
recorded last-order time, the strategy's priority is looked up in the
market-type priority table (unknown or absent strategies default to 999);
priority ≤ 2 bypasses the cooldown entirely; otherwise the call is rejected —
`None` without dispatching and without touching `last_orders` — when
`now - last < cooldown` (config default 300); on every admission
`last_orders[symbol]` is stamped to `now` before dispatch, so a failing
dispatch (`dispatch = none`) still consumes the cooldown slot.  With a 300 s
cooldown, a non-priority second order at `t+100` is rejected while a
priority-1 `arbitrage` order at `t+1` is admitted. -/
theorem execute_order_cooldown_spec {R : Type} (lastOrders : Symbol → Option ℚ)
    (cooldownCfg : Option ℚ) (symbol : Symbol) (strategyName : Option String)
    (now lastTime : ℚ) (dispatch : Option R)
    (hlast : lastOrders symbol = some lastTime) :
    (strategyPriority (if strStartsWith symbol "SPOT:" then "spot" else "futures")
          strategyName ≤ 2 →
      execute_order lastOrders cooldownCfg symbol strategyName now dispatch
        = (ExecOutcome.dispatched dispatch,
           fun s => if s = symbol then some now else lastOrders s)) ∧
    (2 < strategyPriority (if strStartsWith symbol "SPOT:" then "spot" else "futures")
          strategyName →
      now - lastTime < cooldownCfg.getD 300 →
      execute_order lastOrders cooldownCfg symbol strategyName now dispatch
        = (ExecOutcome.rejected, lastOrders)) ∧
    (2 < strategyPriority (if strStartsWith symbol "SPOT:" then "spot" else "futures")
          strategyName →
      ¬ now - lastTime < cooldownCfg.getD 300 →
      execute_order lastOrders cooldownCfg symbol strategyName now dispatch
        = (ExecOutcome.dispatched dispatch,
           fun s => if s = symbol then some now else lastOrders s)) ∧
    (∀ mt : String, strategyPriority mt none = 999) ∧
    strategyPriority "futures" (some "unknown_strategy") = 999 ∧
    (execute_order (fun s => if s = "BTC-USDT" then some 1000 else none) (some 300)
        "BTC-USDT" (some "trend_following") 1100 dispatch).1 = ExecOutcome.rejected ∧
    (execute_order (fun s => if s = "BTC-USDT" then some 1000 else none) (some 300)
        "BTC-USDT" (some "arbitrage") 1001 dispatch).1
      = ExecOutcome.dispatched dispatch := by
  refine ⟨fun hp => ?_, fun hp hc => ?_, fun hp hc => ?_, fun mt => ?_, ?_, ?_, ?_⟩
  · simp [execute_order, hlast, hp]
  · simp [execute_order, hlast, not_le.mpr hp, hc]
  · simp [execute_order, hlast, not_le.mpr hp, hc]
  · simp [strategyPriority]
  · decide
  · have h1 : strategyPriority "futures" (some "trend_following") = 4 := by decide
    have h2 : ¬ strStartsWith "BTC-USDT" "SPOT:" = true := by decide
    simp [execute_order, h1, h2]
    norm_num
  · have h1 : strategyPriority "futures" (some "arbitrage") = 1 := by decide
    have h2 : ¬ strStartsWith "BTC-USDT" "SPOT:" = true := by decide
    simp [execute_order, h1, h2]

/-- Witness for C2: a priority-4 (`trend_following`, futures table) order with
a recorded last-order time 100 s old and a 300 s cooldown is rejected without
mutating `last_orders`. -/
theorem execute_order_cooldown_spec_witness :
    ((fun s : Symbol => if s = "ETHUSDTM" then some (1000 : ℚ) else none) "ETHUSDTM"
        = some 1000) ∧
    (execute_order (fun s => if s = "ETHUSDTM" then some 1000 else none) none
        "ETHUSDTM" (some "trend_following") 1100 (some 7))
      = (ExecOutcome.rejected, fun s => if s = "ETHUSDTM" then some 1000 else none) :=
  ⟨by decide, (execute_order_cooldown_spec
      (fun s => if s = "ETHUSDTM" then some 1000 else none) none "ETHUSDTM"
      (some "trend_following") 1100 1000 (some 7) (by decide)).2.1
        (by decide) (by norm_num)⟩

/-- Counterexample to claim C5: the source compares the SIGNED correlation
against the threshold, not its absolute value.  With one open position whose
cached correlation with the candidate is −0.9, threshold 0.7 and
`max_correlation_exposure = 1`, the claim's absolute-value count is 1 and has
reached the limit — so the claim demands `false` — yet the code returns
`true` (the fresh cache, age 100 < TTL 300, is not refreshed). -/
theorem check_correlation_risk_counterexample :
    (check_correlation_risk
        ⟨["ETH-USDT"], [(("SOL-USDT", "ETH-USDT"), -(9 / 10))], 0, 300, 7 / 10, 1⟩
        (fun _ _ => none) 100 "SOL-USDT").1 = true ∧
    1 ≤ correlated_exposure_abs ["ETH-USDT"] [(("SOL-USDT", "ETH-USDT"), -(9 / 10))]
        (7 / 10) "SOL-USDT" := by
  have h1 : ("ETH-USDT" : String) ≠ "SOL-USDT" := by decide
  constructor
  · norm_num [check_correlation_risk, correlated_exposure, exposureStep, get_correlation,
      cacheLookup, h1]
  · have h2 : |(9 : ℚ) / 10| = 9 / 10 := abs_of_nonneg (by norm_num)
    norm_num [correlated_exposure_abs, get_correlation, cacheLookup, h1, h2]

/-- Claim C5 as amended: `check_correlation_risk` refreshes the correlation
cache (merging via `update_correlation_cache`) when it is older than its TTL,
then counts the currently-open positions whose SIGNED cached correlation with
the candidate strictly exceeds `high_correlation_threshold`, and returns
`false` if and only if that count reaches `max_correlation_exposure`; with
`max_correlation_exposure = 2` and two open positions correlated 0.9 with the
candidate it returns `false`, with only one such position `true`. -/
theorem check_correlation_risk_spec (st : CorrState) (corr : Symbol → Symbol → Option ℚ)
    (now : ℚ) (candidate : Symbol) :
    ((check_correlation_risk st corr now candidate).1 = false ↔
      st.maxExposure ≤ correlated_exposure st.openSymbols
        (check_correlation_risk st corr now candidate).2.cache st.threshold candidate) ∧
    (st.cacheDuration < now - st.cacheTimestamp →
      (check_correlation_risk st corr now candidate).2.cache
          = (update_correlation_cache st.openSymbols st.cache corr now).1 ∧
      (check_correlation_risk st corr now candidate).2.cacheTimestamp = now) ∧
    (¬ st.cacheDuration < now - st.cacheTimestamp →
      (check_correlation_risk st corr now candidate).2 = st) ∧
    (check_correlation_risk st corr now candidate).2.openSymbols = st.openSymbols ∧
    (check_correlation_risk st corr now candidate).2.maxExposure = st.maxExposure ∧
    (check_correlation_risk
        ⟨["AAABBB", "CCCDDD"],
          [(("EEEFFF", "AAABBB"), 9 / 10), (("EEEFFF", "CCCDDD"), 9 / 10)],
          0, 300, 7 / 10, 2⟩
        (fun _ _ => none) 100 "EEEFFF").1 = false ∧
    (check_correlation_risk ⟨["AAABBB"], [(("EEEFFF", "AAABBB"), 9 / 10)], 0, 300, 7 / 10, 2⟩
        (fun _ _ => none) 100 "EEEFFF").1 = true := by
  refine ⟨?_, fun h => ?_, fun h => ?_, ?_, ?_, ?_, ?_⟩
  · by_cases h : st.cacheDuration < now - st.cacheTimestamp <;>
      simp [check_correlation_risk, h, not_lt]
  · constructor <;> simp [check_correlation_risk, h, update_correlation_cache]
  · simp [check_correlation_risk, h]
  · by_cases h : st.cacheDuration < now - st.cacheTimestamp <;>
      simp [check_correlation_risk, h]
  · by_cases h : st.cacheDuration < now - st.cacheTimestamp <;>
      simp [check_correlation_risk, h]
  · have h1 : ("AAABBB" : String) ≠ "EEEFFF" := by decide
    have h2 : ("CCCDDD" : String) ≠ "EEEFFF" := by decide
    norm_num [check_correlation_risk, correlated_exposure, exposureStep, get_correlation,
      cacheLookup, h1, h2]
  · have h1 : ("AAABBB" : String) ≠ "EEEFFF" := by decide
    norm_num [check_correlation_risk, correlated_exposure, exposureStep, get_correlation,
      cacheLookup, h1]

/-- Witness for C5 (amended): a cache of age 100 with TTL 300 is not
refreshed, so the state is returned unchanged. -/
theorem check_correlation_risk_spec_witness :
    ¬ ((300 : ℚ) < 100 - 0) ∧
    (check_correlation_risk ⟨[], [], 0, 300, 7 / 10, 2⟩ (fun _ _ => none) 100 "EEEFFF").2
      = ⟨[], [], 0, 300, 7 / 10, 2⟩ :=
  ⟨by norm_num,
    (check_correlation_risk_spec ⟨[], [], 0, 300, 7 / 10, 2⟩ (fun _ _ => none) 100
      "EEEFFF").2.2.1 (by norm_num)⟩

/-- Counterexample to claim C6: a signal admitted by
`TradingEngine.check_rate_limits` does NOT update the symbol's last-trade
timestamp — the function never touches `last_trade_time` (the engine stamps
it only after the whole trade has succeeded).  Concretely, from the initial
state (all defaults 0) at `now = 1000` the signal is admitted, yet the
last-trade timestamp is still 0 ≠ 1000. -/
theorem check_rate_limits_counterexample :
    (check_rate_limits ⟨fun _ => 0, fun _ => 0, 0⟩ none "BTC-USDT" 1000).1 = true ∧
    (check_rate_limits ⟨fun _ => 0, fun _ => 0, 0⟩ none "BTC-USDT" 1000).2.lastTradeTime
        "BTC-USDT" = 0 ∧
    (0 : ℚ) ≠ 1000 := by
  refine ⟨?_, ?_, by norm_num⟩ <;> norm_num [check_rate_limits]

/-- Claim C6 as amended: `check_rate_limits` clears the hourly counters (and
stamps the global reset time) exactly when more than 3600 s have elapsed since
the last global reset; it then rejects iff the cooldown is active
(`now - last_trade_time[symbol] < 150`) or the symbol's (post-reset) hourly
counter has reached `max_hourly_trades` (config default 5); an admitted signal
increments only that symbol's counter, a rejected signal changes nothing
beyond the possible reset, and the per-symbol last-trade timestamp is never
modified here — `execute_trade` stamps it only after the trade fully
succeeds. -/
theorem check_rate_limits_spec (st : RateState) (cfg : Option Nat) (sym : Symbol)
    (now : ℚ) :
    (check_rate_limits st cfg sym now).2.lastTradeTime = st.lastTradeTime ∧
    ((check_rate_limits st cfg sym now).1 = true ↔
      (150 ≤ now - st.lastTradeTime sym ∧
        (if 3600 < now - st.lastReset then 0 else st.counter sym) < cfg.getD 5)) ∧
    ((check_rate_limits st cfg sym now).1 = true →
      (check_rate_limits st cfg sym now).2.counter sym
          = (if 3600 < now - st.lastReset then 0 else st.counter sym) + 1 ∧
      ∀ s, s ≠ sym → (check_rate_limits st cfg sym now).2.counter s
          = (if 3600 < now - st.lastReset then 0 else st.counter s)) ∧
    ((check_rate_limits st cfg sym now).1 = false →
      (check_rate_limits st cfg sym now).2
        = if 3600 < now - st.lastReset
          then { st with counter := fun _ => 0, lastReset := now }
          else st) ∧
    (¬ 3600 < now - st.lastReset →
      (check_rate_limits st cfg sym now).2.lastReset = st.lastReset) := by
  by_cases hr : (3600 : ℚ) < now - st.lastReset
  · by_cases hcd : now - st.lastTradeTime sym < 150
    · refine ⟨?_, ?_, ?_, ?_, fun h => absurd hr h⟩
      · simp [check_rate_limits, hr, hcd]
      · simp [check_rate_limits, hr, hcd, not_le.mpr hcd]
      · simp [check_rate_limits, hr, hcd]
      · intro _
        simp [check_rate_limits, hr, hcd]
    · by_cases hcnt : cfg.getD 5 ≤ (0 : Nat)
      · refine ⟨?_, ?_, ?_, ?_, fun h => absurd hr h⟩
        · simp [check_rate_limits, hr, hcd, hcnt]
        · simp [check_rate_limits, hr, hcd, hcnt, Nat.le_zero.mp hcnt]
        · simp [check_rate_limits, hr, hcd, hcnt]
        · intro _
          simp [check_rate_limits, hr, hcd, hcnt]
      · refine ⟨?_, ?_, fun _ => ⟨?_, fun s hs => ?_⟩, ?_, fun h => absurd hr h⟩
        · simp [check_rate_limits, hr, hcd, hcnt]
        · simp [check_rate_limits, hr, hcd, hcnt, not_lt.mp hcd, Nat.not_le.mp hcnt]
        · simp [check_rate_limits, hr, hcd, hcnt]
        · simp [check_rate_limits, hr, hcd, hcnt, hs]
        · simp [check_rate_limits, hr, hcd, hcnt]
  · by_cases hcd : now - st.lastTradeTime sym < 150
    · refine ⟨?_, ?_, ?_, ?_, fun _ => ?_⟩
      · simp [check_rate_limits, hr, hcd]
      · simp [check_rate_limits, hr, hcd, not_le.mpr hcd]
      · simp [check_rate_limits, hr, hcd]
      · intro _
        simp [check_rate_limits, hr, hcd]
      · simp [check_rate_limits, hr, hcd]
    · by_cases hcnt : cfg.getD 5 ≤ st.counter sym
      · refine ⟨?_, ?_, ?_, ?_, fun _ => ?_⟩
        · simp [check_rate_limits, hr, hcd, hcnt]
        · simp [check_rate_limits, hr, hcd, hcnt, Nat.not_lt.mpr hcnt]
        · simp [check_rate_limits, hr, hcd, hcnt]
        · intro _
          simp [check_rate_limits, hr, hcd, hcnt]
        · simp [check_rate_limits, hr, hcd, hcnt]
      · refine ⟨?_, ?_, fun _ => ⟨?_, fun s hs => ?_⟩, ?_, fun _ => ?_⟩
        · simp [check_rate_limits, hr, hcd, hcnt]
        · simp [check_rate_limits, hr, hcd, hcnt, not_lt.mp hcd, Nat.not_le.mp hcnt]
        · simp [check_rate_limits, hr, hcd, hcnt]
        · simp [check_rate_limits, hr, hcd, hcnt, hs]
        · simp [check_rate_limits, hr, hcd, hcnt]
        · simp [check_rate_limits, hr, hcd, hcnt]

/-- Witness for C6 (amended): from the all-zero state at `now = 2000` the
signal is admitted and the symbol's counter goes from 0 to 1. -/
theorem check_rate_limits_spec_witness :
    (check_rate_limits ⟨fun _ => 0, fun _ => 0, 0⟩ none "ADA-USDT" 2000).1 = true ∧
    (check_rate_limits ⟨fun _ => 0, fun _ => 0, 0⟩ none "ADA-USDT" 2000).2.counter
        "ADA-USDT" = (if (3600 : ℚ) < 2000 - 0 then 0 else 0) + 1 :=
  ⟨by norm_num [check_rate_limits],
    ((check_rate_limits_spec ⟨fun _ => 0, fun _ => 0, 0⟩ none "ADA-USDT" 2000).2.2.1
      (by norm_num [check_rate_limits])).1⟩

/-- An element of `posInsert ps s p` is the new binding or one of the old. -/
theorem mem_posInsert {ps : Positions} {s : Symbol} {p : Position} {e : Symbol × Position}
    (h : e ∈ posInsert ps s p) : e = (s, p) ∨ e ∈ ps := by
  rcases List.mem_cons.mp h with h | h
  · exact Or.inl h
  · exact Or.inr (List.mem_filter.mp h).1

/-- One `syncStep` preserves the absence of zero-size entries. -/
theorem syncStep_nonzero (priceOf : Symbol → ℚ) (acc : Positions) (r : RawPosition)
    (hacc : ∀ e ∈ acc, e.2.size ≠ 0) : ∀ e ∈ syncStep priceOf acc r, e.2.size ≠ 0 := by
  intro e he
  cases r with
  | spot c b =>
    by_cases hb : b ≠ 0
    · rw [syncStep, if_pos hb] at he
      rcases mem_posInsert he with h | h
      · subst h; simpa using hb
      · exact hacc e h
    · rw [syncStep, if_neg hb] at he
      exact hacc e he
  | futures s q ep =>
    by_cases hq : q ≠ 0
    · rw [syncStep, if_pos hq] at he
      rcases mem_posInsert he with h | h
      · subst h; simpa using hq
      · exact hacc e h
    · rw [syncStep, if_neg hq] at he
      exact hacc e he
  | malformed => exact hacc e he

/-- The `fetch_positions` fold preserves the absence of zero-size entries. -/
theorem foldl_syncStep_nonzero (priceOf : Symbol → ℚ) (raw : List RawPosition) :
    ∀ acc : Positions, (∀ e ∈ acc, e.2.size ≠ 0) →
      ∀ e ∈ raw.foldl (syncStep priceOf) acc, e.2.size ≠ 0 := by
  induction raw with
  | nil => intro acc hacc e he; exact hacc e he
  | cons r rest ih =>
    intro acc hacc e he
    rw [List.foldl_cons] at he
    exact ih (syncStep priceOf acc r) (syncStep_nonzero priceOf acc r hacc) e he

/-- Claim C7 as amended: `sync_positions` retains only non-zero sizes and
replaces the entire position map (its result does not depend on the previous
map), so a freshly synced map never contains a zero-size entry; but
`update_position` does NOT preserve this invariant (see the counterexample) —
zero-size entries it leaves behind are only removed later by
`cleanup_positions`. -/
theorem sync_positions_spec (oldA oldB : Positions) (raw : List RawPosition)
    (priceOf : Symbol → ℚ) :
    sync_positions oldA raw priceOf = sync_positions oldB raw priceOf ∧
    ∀ e ∈ sync_positions oldA raw priceOf, e.2.size ≠ 0 := by
  refine ⟨rfl, ?_⟩
  intro e he
  rw [sync_positions] at he
  exact foldl_syncStep_nonzero priceOf raw [] (by simp) e he

/-- Witness for C7 (amended): syncing a spot balance of 2 and a spot balance
of 0 yields a map holding only the former, whose size 2 is non-zero. -/
theorem sync_positions_spec_witness :
    (("BTCUSDT", (⟨2, 0, 7, none, none, none, none⟩ : Position))
        ∈ sync_positions [] [RawPosition.spot "BTCUSDT" 2, RawPosition.spot "LTCUSDT" 0]
            (fun _ => 7)) ∧
    (⟨2, 0, 7, none, none, none, none⟩ : Position).size ≠ 0 :=
  have hm : ("BTCUSDT", (⟨2, 0, 7, none, none, none, none⟩ : Position))
      ∈ sync_positions [] [RawPosition.spot "BTCUSDT" 2, RawPosition.spot "LTCUSDT" 0]
          (fun _ => 7) := by
    norm_num [sync_positions, syncStep, posInsert]
  ⟨hm, (sync_positions_spec [] []
      [RawPosition.spot "BTCUSDT" 2, RawPosition.spot "LTCUSDT" 0] (fun _ => 7)).2 _ hm⟩

/-- Counterexample to claim C7: `update_position` applied to a trade update
with no (equivalently, a zero) size leaves an entry of size 0 in the position
map, so not every mutating operation preserves the no-zero-size invariant. -/
theorem update_position_zero_counterexample :
    posLookup (update_position [] false "XRP-USDT" ⟨none, none, none, none, none, none⟩)
        "XRP-USDT" = some ⟨0, 0, 0, none, none, none, none⟩ ∧
    (Position.size ⟨0, 0, 0, none, none, none, none⟩ : ℚ) = 0 := by
  constructor
  · simp [update_position, posLookup, posInsert]
  · rfl

/-- Counterexample to claim C8: the stop-loss refresh of `monitor_positions`
sits inside the `abs(pnl_pct) > 5` logging branch, so an unrealized move of
4% — above the claimed 3% threshold — does NOT trigger `update_stop_loss`. -/
theorem monitor_position_counterexample :
    (monitor_position ⟨1, 100, 100, none, none, none, none⟩ 104).stopLossRefreshed
        = false ∧
    (monitor_position ⟨1, 100, 100, none, none, none, none⟩ 104).pos.unrealizedPnlPct
        = some 4 ∧
    (3 : ℚ) < 4 := by
  refine ⟨?_, ?_, by norm_num⟩ <;> norm_num [monitor_position]

/-- Claim C8 as amended: for each position with a valid (positive) current
price, `monitor_positions` recomputes the unrealized PnL percentage (long:
`(cur-entry)/entry*100`; short: `(entry-cur)/entry*100`, computed only when
the entry price is positive and the size non-zero) and triggers the stop-loss
refresh exactly when the unrealized move exceeds 5% — not the 3% of the
claim, whose inner check is subsumed by the surrounding `abs(pnl_pct) > 5`
branch.  The liquidation-proximity warning is emitted exactly when the stored
liquidation price is a `float` (set from a trade update) within 5% of the
current price; when the stored value is the `Decimal` computed by
`update_position`'s futures path, `Decimal - float` raises `TypeError`, so no
warning is sent and the loop pass is aborted by the outer handler (after the
PnL store and any stop-loss refresh for this position have happened). -/
theorem monitor_position_spec (p : Position) (c : ℚ) (hc : 0 < c) :
    (0 < p.entryPrice → p.size ≠ 0 →
      (monitor_position p c).pos.unrealizedPnlPct
        = some (if 0 < p.size then (c - p.entryPrice) / p.entryPrice * 100
            else (p.entryPrice - c) / p.entryPrice * 100)) ∧
    ((monitor_position p c).stopLossRefreshed = true ↔
      (0 < p.entryPrice ∧ p.size ≠ 0 ∧
        5 < |if 0 < p.size then (c - p.entryPrice) / p.entryPrice * 100
            else (p.entryPrice - c) / p.entryPrice * 100|)) ∧
    ((monitor_position p c).liqWarning = true ↔
      ∃ l : ℚ, p.liqPrice = some (StoredLiq.fromUpdate l) ∧ |l - c| / c < 1 / 20) ∧
    ((monitor_position p c).typeErrorAbort = true ↔
      ∃ l : LiqPrice, p.liqPrice = some (StoredLiq.computed l)) ∧
    (monitor_position p c).pos.currentPrice = c := by
  have hnc : ¬ c ≤ 0 := not_le.mpr hc
  by_cases hp : 0 < p.entryPrice ∧ p.size ≠ 0 <;>
    rcases hlq : p.liqPrice with _ | (l | l)
  · refine ⟨fun _ _ => ?_, ?_, ?_, ?_, ?_⟩
    · simp [monitor_position, hnc, hp, hlq]
    · simp [monitor_position, hnc, hp, hlq, hp.1, hp.2]
      intro h5
      exact lt_trans (by norm_num) h5
    · simp [monitor_position, hnc, hp, hlq]
    · simp [monitor_position, hnc, hp, hlq]
    · simp [monitor_position, hnc, hp, hlq]
  · refine ⟨fun _ _ => ?_, ?_, ?_, ?_, ?_⟩
    · simp [monitor_position, hnc, hp, hlq]
    · simp [monitor_position, hnc, hp, hlq, hp.1, hp.2]
      intro h5
      exact lt_trans (by norm_num) h5
    · simp [monitor_position, hnc, hp, hlq]
    · simp [monitor_position, hnc, hp, hlq]
    · simp [monitor_position, hnc, hp, hlq]
  · refine ⟨fun _ _ => ?_, ?_, ?_, ?_, ?_⟩
    · simp [monitor_position, hnc, hp, hlq]
    · simp [monitor_position, hnc, hp, hlq, hp.1, hp.2]
      intro h5
      exact lt_trans (by norm_num) h5
    · simp [monitor_position, hnc, hp, hlq]
    · simp [monitor_position, hnc, hp, hlq]
    · simp [monitor_position, hnc, hp, hlq]
  · refine ⟨fun h1 h2 => absurd ⟨h1, h2⟩ hp, ?_, ?_, ?_, ?_⟩
    · simp [monitor_position, hnc, hp, hlq]
      intro h1 h2
      exact absurd ⟨h1, h2⟩ hp
    · simp [monitor_position, hnc, hp, hlq]
    · simp [monitor_position, hnc, hp, hlq]
    · simp [monitor_position, hnc, hp, hlq]
  · refine ⟨fun h1 h2 => absurd ⟨h1, h2⟩ hp, ?_, ?_, ?_, ?_⟩
    · simp [monitor_position, hnc, hp, hlq]
      intro h1 h2
      exact absurd ⟨h1, h2⟩ hp
    · simp [monitor_position, hnc, hp, hlq]
    · simp [monitor_position, hnc, hp, hlq]
    · simp [monitor_position, hnc, hp, hlq]
  · refine ⟨fun h1 h2 => absurd ⟨h1, h2⟩ hp, ?_, ?_, ?_, ?_⟩
    · simp [monitor_position, hnc, hp, hlq]
      intro h1 h2
      exact absurd ⟨h1, h2⟩ hp
    · simp [monitor_position, hnc, hp, hlq]
    · simp [monitor_position, hnc, hp, hlq]
    · simp [monitor_position, hnc, hp, hlq]

/-- Witness for C8 (amended): a long position entered at 100, now at 110
(unrealized +10% > 5%), has its stop loss refreshed; its liquidation price is
the float 105 stored from a trade update. -/
theorem monitor_position_spec_witness :
    (0 : ℚ) < 110 ∧
    (monitor_position ⟨1, 100, 100, some (StoredLiq.fromUpdate 105), none, none, none⟩
        110).stopLossRefreshed = true :=
  ⟨by norm_num,
    ((monitor_position_spec
        ⟨1, 100, 100, some (StoredLiq.fromUpdate 105), none, none, none⟩ 110
        (by norm_num)).2.1).mpr ⟨by norm_num, by norm_num, by norm_num⟩⟩

/-- Lookup after a `cacheInsert`. -/
theorem cacheLookup_cacheInsert (c : CorrCache) (k k2 : Symbol × Symbol) (v : ℚ) :
    cacheLookup (cacheInsert c k v) k2 = if k = k2 then some v else cacheLookup c k2 := rfl

/-- Every pair visited by the correlation loops has both coordinates among
the given symbols. -/
theorem mem_pairsOf {l : List Symbol} {p : Symbol × Symbol} (h : p ∈ pairsOf l) :
    p.1 ∈ l ∧ p.2 ∈ l := by
  induction l with
  | nil => simp [pairsOf] at h
  | cons s rest ih =>
    rw [pairsOf, List.mem_append] at h
    rcases h with h | h
    · rcases List.mem_map.mp h with ⟨t, ht, rfl⟩
      exact ⟨List.mem_cons_self s rest, List.mem_cons_of_mem s ht⟩
    · obtain ⟨h1, h2⟩ := ih h
      exact ⟨List.mem_cons_of_mem s h1, List.mem_cons_of_mem s h2⟩

/-- A key present after one `corrStep` was present before, or is the visited
pair in one of its two orientations. -/
theorem corrStep_keys (corr : Symbol → Symbol → Option ℚ) (c : CorrCache)
    (p k : Symbol × Symbol) (h : cacheLookup (corrStep corr c p) k ≠ none) :
    cacheLookup c k ≠ none ∨ k = p ∨ k = (p.2, p.1) := by
  rw [corrStep] at h
  cases hc : corr p.1 p.2 with
  | none => rw [hc] at h; exact Or.inl h
  | some v =>
    rw [hc, cacheLookup_cacheInsert, cacheLookup_cacheInsert] at h
    by_cases h1 : (p.2, p.1) = k
    · exact Or.inr (Or.inr h1.symm)
    · rw [if_neg h1] at h
      by_cases h2 : (p.1, p.2) = k
      · exact Or.inr (Or.inl h2.symm)
      · rw [if_neg h2] at h
        exact Or.inl h

/-- A key present after the whole pair fold was present before, or is one of
the visited pairs in one of its two orientations. -/
theorem foldl_corrStep_keys (corr : Symbol → Symbol → Option ℚ)
    (L : List (Symbol × Symbol)) :
    ∀ (c : CorrCache) (k : Symbol × Symbol),
      cacheLookup (L.foldl (corrStep corr) c) k ≠ none →
      cacheLookup c k ≠ none ∨ ∃ p ∈ L, k = p ∨ k = (p.2, p.1) := by
  induction L with
  | nil => intro c k h; exact Or.inl h
  | cons p rest ih =>
    intro c k h
    rw [List.foldl_cons] at h
    rcases ih (corrStep corr c p) k h with h2 | ⟨q, hq, hk⟩
    · rcases corrStep_keys corr c p k h2 with h3 | h3
      · exact Or.inl h3
      · exact Or.inr ⟨p, List.mem_cons_self p rest, h3⟩
    · exact Or.inr ⟨q, List.mem_cons_of_mem p hq, hk⟩

/-- A fold of `exposureStep` over symbols none of which satisfies the
counting condition leaves the accumulator unchanged. -/
theorem foldl_exposureStep_id (cache : CorrCache) (threshold : ℚ) (candidate : Symbol) :
    ∀ l : List Symbol, (∀ s ∈ l, ¬ threshold < get_correlation cache candidate s) →
      ∀ n : Nat, l.foldl (exposureStep cache threshold candidate) n = n := by
  intro l
  induction l with
  | nil => intro _ n; rfl
  | cons s rest ih =>
    intro hl n
    rw [List.foldl_cons]
    have hstep : exposureStep cache threshold candidate n s = n := by
      rw [exposureStep]
      by_cases hs : s = candidate
      · rw [if_pos hs]
      · rw [if_neg hs, if_neg (hl s (List.mem_cons_self s rest))]
    rw [hstep]
    exact ih (fun t ht => hl t (List.mem_cons_of_mem s ht)) n

/-- Claim C10: `get_correlation` returns 0.0 for every pair absent from the
correlation cache; `update_correlation_cache` only ever adds pairs both of
whose symbols were open positions at refresh time; hence (for a non-negative
threshold, the configured default being 0.7) an open position whose pair with
the candidate was never cached contributes correlation 0.0 and never counts
toward the correlated-exposure limit — if no open symbol's pair with the
candidate is cached, the exposure count is 0. -/
theorem get_correlation_default_spec :
    (∀ (c : CorrCache) (a b : Symbol), cacheLookup c (a, b) = none →
      get_correlation c a b = 0) ∧
    (∀ (symbols : List Symbol) (cache : CorrCache) (corr : Symbol → Symbol → Option ℚ)
        (now : ℚ) (k : Symbol × Symbol),
      cacheLookup (update_correlation_cache symbols cache corr now).1 k ≠ none →
      cacheLookup cache k ≠ none ∨ (k.1 ∈ symbols ∧ k.2 ∈ symbols)) ∧
    (∀ (cache : CorrCache) (threshold : ℚ) (candidate s : Symbol),
      0 ≤ threshold → cacheLookup cache (candidate, s) = none →
      ¬ threshold < get_correlation cache candidate s) ∧
    (∀ (openSymbols : List Symbol) (cache : CorrCache) (threshold : ℚ)
        (candidate : Symbol),
      0 ≤ threshold →
      (∀ s ∈ openSymbols, cacheLookup cache (candidate, s) = none) →
      correlated_exposure openSymbols cache threshold candidate = 0) := by
  have hzero : ∀ (c : CorrCache) (a b : Symbol), cacheLookup c (a, b) = none →
      get_correlation c a b = 0 := by
    intro c a b h
    rw [get_correlation, h]
    rfl
  have hnocount : ∀ (cache : CorrCache) (threshold : ℚ) (candidate s : Symbol),
      0 ≤ threshold → cacheLookup cache (candidate, s) = none →
      ¬ threshold < get_correlation cache candidate s := by
    intro cache threshold candidate s hth h
    rw [hzero cache candidate s h]
    exact not_lt.mpr hth
  refine ⟨hzero, ?_, hnocount, ?_⟩
  · intro symbols cache corr now k h
    rw [update_correlation_cache] at h
    rcases foldl_corrStep_keys corr (pairsOf symbols) cache k h with h2 | ⟨p, hp, hk⟩
    · exact Or.inl h2
    · obtain ⟨h1, h2⟩ := mem_pairsOf hp
      rcases hk with rfl | rfl
      · exact Or.inr ⟨h1, h2⟩
      · exact Or.inr ⟨h2, h1⟩
  · intro openSymbols cache threshold candidate hth hnone
    rw [correlated_exposure]
    exact foldl_exposureStep_id cache threshold candidate openSymbols
      (fun s hs => hnocount cache threshold candidate s hth (hnone s hs)) 0

/-- Witness for C10: the empty cache yields correlation 0 for any pair. -/
theorem get_correlation_default_witness :
    cacheLookup [] ("AAAUSDT", "BBBUSDT") = none ∧
    get_correlation [] "AAAUSDT" "BBBUSDT" = 0 :=
  ⟨rfl, get_correlation_default_spec.1 [] "AAAUSDT" "BBBUSDT" rfl⟩

end KucoinProject
